import Mathlib

/-!
Verification of the admission-control and failure-isolation subsystem of the
cdr-api repository: the bounded FIFO request queue with circuit breaker
(`src/queue.ts`, class `RequestQueue`), the database health monitor
(`src/db-health.ts`, class `DatabaseHealthMonitor`) and the routing policy
(`src/db.ts`, function `safeQuery`).

The embedding is a shallow one: the mutable fields of `RequestQueue` become a
`QState` record, each method becomes a state-transforming function, and the
asynchronous drain loop `processQueue` becomes a fuel-indexed recursive
function `drainLoop` over one serial invocation.  A work item's handler is
opaque in the source, so it is represented by an identifier; the outcome of
racing the handler against the 30s timeout (`processRequest`, lines 146-168
of queue.ts) is supplied by an environment `StepEnv` per loop iteration,
together with the values the source reads from `Date.now()` at the three
call sites inside one iteration.  Settling a promise (`resolve`/`reject`)
is recorded as a `SettleEvent` carrying the item id, its enqueue timestamp,
the time at which the drain loop considered it, and the kind of settlement.
-/

namespace CdrApi

/-- CircuitState from queue.ts lines 22-26. -/
inductive CircuitState where
  | CLOSED
  | OPEN
  | HALF_OPEN
deriving DecidableEq, Repr

/-- QueuedRequest from queue.ts lines 15-20: the handler is opaque and is
represented by a numeric id; `timestamp` is the enqueue time. -/
structure QueuedRequest where
  id : Nat
  timestamp : Int
deriving DecidableEq, Repr

/-- Errors a queued handler execution can end with: the handler's own
rejection, or the 30s timeout race of `processRequest`. -/
inductive QError where
  | execFailure
  | execTimeout
deriving DecidableEq, Repr

/-- Outcome of racing the handler against the request timeout
(queue.ts lines 149-157). -/
inductive ExecOutcome where
  | ok (v : Nat)
  | err (e : QError)
deriving DecidableEq, Repr

/-- The ways a work item's promise gets settled in queue.ts:
`resolved` (line 161), `rejectedError` (line 166, covering handler failure
and timeout), `expiredCleanup` (line 233), `expiredDequeue` (line 119) and
`overloaded` (line 68). -/
inductive SettleKind where
  | resolved (v : Nat)
  | rejectedError (e : QError)
  | expiredCleanup
  | expiredDequeue
  | overloaded
deriving DecidableEq, Repr

/-- Whether a settlement kind is one of the two expiry rejections. -/
def SettleKind.isExpiry : SettleKind → Bool
  | .expiredCleanup => true
  | .expiredDequeue => true
  | _ => false

/-- Whether a settlement kind corresponds to an actual handler execution
(the `processRequest` paths, queue.ts lines 146-168). -/
def SettleKind.isExecution : SettleKind → Bool
  | .resolved _ => true
  | .rejectedError _ => true
  | _ => false

/-- One settlement of one work item: `atTime` is the `Date.now()` value at
the code site that settled it. -/
structure SettleEvent where
  id : Nat
  ts : Int
  atTime : Int
  kind : SettleKind
deriving DecidableEq, Repr

/-- Configuration of RequestQueue (queue.ts lines 44-58) with the source's
defaults. -/
structure QueueConfig where
  MAX_QUEUE_SIZE : Nat := 200
  REQUEST_TIMEOUT : Nat := 30000
  FAILURE_THRESHOLD : Nat := 5
  SUCCESS_THRESHOLD : Nat := 3
  CIRCUIT_RESET_TIMEOUT : Nat := 60000
  MAX_REQUEST_AGE : Nat := 120000
deriving Repr

/-- The default configuration (all `config?` fields absent). -/
def defaultConfig : QueueConfig := {}

/-- Mutable state of RequestQueue (queue.ts lines 29-34). -/
structure QState where
  queue : List QueuedRequest
  isProcessing : Bool
  circuitState : CircuitState
  failureCount : Nat
  successCount : Nat
  lastFailureTime : Option Int
deriving DecidableEq, Repr

/-- Initial state of a freshly constructed RequestQueue. -/
def initState : QState :=
  { queue := [], isProcessing := false, circuitState := .CLOSED,
    failureCount := 0, successCount := 0, lastFailureTime := none }

/-- shouldAttemptReset (queue.ts lines 214-218).  JavaScript's
`!this.lastFailureTime` is true for both `null` and `0`, so a recorded
failure time of `0` also makes the method return `false`. -/
def shouldAttemptReset (cfg : QueueConfig) (now : Int) (s : QState) : Bool :=
  match s.lastFailureTime with
  | none => false
  | some t =>
    if t = 0 then false
    else decide ((cfg.CIRCUIT_RESET_TIMEOUT : Int) ≤ now - t)

/-- enqueue (queue.ts lines 63-93), minus the `processQueue()` trigger which
is modelled separately by `drainLoop`.  Returns the new state and, when the
queue is full, the immediate overloaded settlement of the new item; `none`
means the item was accepted and appended to the tail. -/
def enqueue (cfg : QueueConfig) (now : Int) (hid : Nat) (s : QState) :
    QState × Option SettleEvent :=
  if cfg.MAX_QUEUE_SIZE ≤ s.queue.length then
    (s, some ⟨hid, now, now, .overloaded⟩)
  else
    let s1 :=
      if s.circuitState = .OPEN ∧ shouldAttemptReset cfg now s then
        { s with circuitState := .HALF_OPEN, successCount := 0 }
      else s
    ({ s1 with queue := s1.queue ++ [⟨hid, now⟩] }, none)

/-- onSuccess (queue.ts lines 173-187). -/
def onSuccess (cfg : QueueConfig) (s : QState) : QState :=
  let s0 := { s with failureCount := 0 }
  if s0.circuitState = .HALF_OPEN then
    let s1 := { s0 with successCount := s0.successCount + 1 }
    if cfg.SUCCESS_THRESHOLD ≤ s1.successCount then
      { s1 with circuitState := .CLOSED, successCount := 0,
                lastFailureTime := none }
    else s1
  else s0

/-- onFailure (queue.ts lines 192-209); `now` is the `Date.now()` read at
line 194. -/
def onFailure (cfg : QueueConfig) (now : Int) (s : QState) : QState :=
  let s0 := { s with failureCount := s.failureCount + 1,
                     lastFailureTime := some now }
  if s0.circuitState = .CLOSED ∧ cfg.FAILURE_THRESHOLD ≤ s0.failureCount then
    { s0 with circuitState := .OPEN, successCount := 0 }
  else if s0.circuitState = .HALF_OPEN then
    { s0 with circuitState := .OPEN, successCount := 0 }
  else s0

/-- The values one iteration of the drain loop reads from the outside world:
`tClean` is the `Date.now()` of `cleanupOldRequests` (line 224), `tCheck`
the one of the age check (line 116), `tFail` the one inside `onFailure`
(line 194), and `out` the outcome of racing the dequeued item's handler
against the request timeout. -/
structure StepEnv where
  tClean : Int
  tCheck : Int
  tFail : Int
  out : ExecOutcome
deriving DecidableEq, Repr

/-- processRequest (queue.ts lines 146-168) for the dequeued request `req`:
on success `onSuccess` runs and the promise is resolved; on failure
(handler error or timeout) `onFailure` runs and the promise is rejected
with that error. -/
def processRequest (cfg : QueueConfig) (e : StepEnv) (req : QueuedRequest)
    (s : QState) : QState × SettleEvent :=
  match e.out with
  | .ok v => (onSuccess cfg s, ⟨req.id, req.timestamp, e.tCheck, .resolved v⟩)
  | .err er =>
      (onFailure cfg e.tFail s, ⟨req.id, req.timestamp, e.tCheck, .rejectedError er⟩)

/-- The while loop of cleanupOldRequests (queue.ts lines 227-238): head items
whose age at `now` strictly exceeds MAX_REQUEST_AGE are shifted off and
rejected as expired; the loop stops at the first young enough head. -/
def cleanupLoop (cfg : QueueConfig) (now : Int) :
    List QueuedRequest → List QueuedRequest × List SettleEvent
  | [] => ([], [])
  | first :: rest =>
    if (cfg.MAX_REQUEST_AGE : Int) < now - first.timestamp then
      let r := cleanupLoop cfg now rest
      (r.1, ⟨first.id, first.timestamp, now, .expiredCleanup⟩ :: r.2)
    else (first :: rest, [])

/-- cleanupOldRequests (queue.ts lines 223-243): only the queue changes, the
settled expiry events are returned alongside. -/
def cleanupOldRequests (cfg : QueueConfig) (now : Int) (s : QState) :
    QState × List SettleEvent :=
  let r := cleanupLoop cfg now s.queue
  ({ s with queue := r.1 }, r.2)

/-- The while loop of processQueue (queue.ts lines 107-131) for one serial
invocation: `env i` supplies the times and execution outcome of iteration
`i`; `fuel` bounds the number of iterations (any `fuel` at least the queue
length lets the loop run to its own exit).  Each iteration cleans up
expired head items, shifts the next request, rejects it as expired if its
age at `tCheck` exceeds MAX_REQUEST_AGE, otherwise executes it via
`processRequest`; if the circuit is OPEN after that execution the loop
breaks, leaving the remaining items queued. -/
def drainLoop (cfg : QueueConfig) (env : Nat → StepEnv) :
    Nat → Nat → QState → QState × List SettleEvent
  | _, 0, s => (s, [])
  | i, fuel + 1, s =>
    if s.queue = [] then (s, [])
    else
      let e := env i
      let c := cleanupOldRequests cfg e.tClean s
      match c.1.queue with
      | [] => (c.1, c.2)
      | req :: rest =>
        let s2 := { c.1 with queue := rest }
        if (cfg.MAX_REQUEST_AGE : Int) < e.tCheck - req.timestamp then
          let r := drainLoop cfg env (i + 1) fuel s2
          (r.1, c.2 ++ ⟨req.id, req.timestamp, e.tCheck, .expiredDequeue⟩ :: r.2)
        else
          let p := processRequest cfg e req s2
          if p.1.circuitState = .OPEN then
            (p.1, c.2 ++ [p.2])
          else
            let r := drainLoop cfg env (i + 1) fuel p.1
            (r.1, c.2 ++ p.2 :: r.2)

/-- processQueue (queue.ts lines 98-141): the re-entrance guard on
`isProcessing` around one serial run of the drain loop. -/
def processQueue (cfg : QueueConfig) (env : Nat → StepEnv) (fuel : Nat)
    (s : QState) : QState × List SettleEvent :=
  if s.isProcessing then (s, [])
  else
    let r := drainLoop cfg env 0 fuel { s with isProcessing := true }
    ({ r.1 with isProcessing := false }, r.2)

/-- The condition of queue.ts lines 136-139 under which the finally block of
processQueue schedules the 100ms `setTimeout` retry of the drain loop:
queue non-empty AND circuit not OPEN. -/
def schedulesRetry (s : QState) : Bool :=
  decide (0 < s.queue.length) && decide (s.circuitState ≠ CircuitState.OPEN)

/-- A sequence of enqueue calls, each given as (Date.now() value, item id);
rejected (overloaded) calls leave the state unchanged, matching
queue.ts line 68. -/
def enqueueAll (cfg : QueueConfig) (xs : List (Int × Nat)) (s : QState) : QState :=
  xs.foldl (fun st p => (enqueue cfg p.1 p.2 st).1) s

/-- A sequence of consecutive execution failures, one `onFailure` per
recorded failure time. -/
def onFailures (cfg : QueueConfig) (ts : List Int) (s : QState) : QState :=
  ts.foldl (fun st t => onFailure cfg t st) s

/-- The breaker-owned part of the state: circuit state, failure counter,
success counter and last failure time. -/
def breakerOf (s : QState) : CircuitState × Nat × Nat × Option Int :=
  (s.circuitState, s.failureCount, s.successCount, s.lastFailureTime)

/-- HealthStatus fields owned by DatabaseHealthMonitor
(db-health.ts lines 27-34). -/
structure HealthState where
  healthy : Bool
  lastCheck : Int
  lastSuccess : Option Int
  lastFailure : Option Int
  consecutiveFailures : Nat
  consecutiveSuccesses : Nat
  totalChecks : Nat
  failedChecks : Nat
deriving DecidableEq, Repr

/-- Field initializers of DatabaseHealthMonitor (db-health.ts lines 27-34):
`healthy` starts true and `lastSuccess` starts at the construction-time
`Date.now()`. -/
def HealthState.init (now : Int) : HealthState :=
  { healthy := true, lastCheck := now, lastSuccess := some now,
    lastFailure := none, consecutiveFailures := 0, consecutiveSuccesses := 0,
    totalChecks := 0, failedChecks := 0 }

/-- isHealthy (db-health.ts lines 149-151): a pure read of the flag. -/
def isHealthy (h : HealthState) : Bool := h.healthy

/-- Combined state seen by the routing policy: the health monitor singleton
and the request queue singleton. -/
structure System where
  health : HealthState
  q : QState
deriving DecidableEq, Repr

/-- What safeQuery returns to its caller, as far as routing is concerned. -/
inductive RouteResult where
  | direct (out : ExecOutcome)
  | queuedAccepted
  | queuedOverloaded
deriving DecidableEq, Repr

/-- safeQuery (db.ts lines 104-116): if the health monitor reports healthy,
execute the task directly (fast path, touching neither breaker nor queue);
otherwise hand it to the queue's enqueue (slow path).  `task` is the
outcome the direct execution of the query would have. -/
def safeQuery (cfg : QueueConfig) (now : Int) (hid : Nat) (task : ExecOutcome)
    (sys : System) : System × RouteResult :=
  if isHealthy sys.health then
    (sys, .direct task)
  else
    let r := enqueue cfg now hid sys.q
    ({ sys with q := r.1 },
      match r.2 with
      | none => .queuedAccepted
      | some _ => .queuedOverloaded)

/-! ### Concrete states and environments used to evaluate the model -/

/-- Two fresh items queued, drain in progress. -/
def sW1 : QState := { initState with queue := [⟨1, 0⟩, ⟨2, 0⟩], isProcessing := true }

/-- Environment in which every execution succeeds with value 7 at time 0. -/
def envOk : Nat → StepEnv := fun _ => ⟨0, 0, 0, .ok 7⟩

/-- Breaker OPEN since time 1000 with one fresh item queued, no drain
running. -/
def sOpen1 : QState :=
  { queue := [⟨0, 1000⟩], isProcessing := false, circuitState := .OPEN,
    failureCount := 5, successCount := 0, lastFailureTime := some 1000 }

/-- Environment in which every execution fails at time 2000. -/
def envFail : Nat → StepEnv := fun _ => ⟨2000, 2000, 2000, .err .execFailure⟩

/-- Breaker OPEN since time 500 with two fresh items queued, no drain
running. -/
def sOpen2 : QState :=
  { queue := [⟨4, 0⟩, ⟨5, 0⟩], isProcessing := false, circuitState := .OPEN,
    failureCount := 5, successCount := 0, lastFailureTime := some 500 }

/-- Environment in which every execution fails at time 600. -/
def envFail2 : Nat → StepEnv := fun _ => ⟨600, 600, 600, .err .execFailure⟩

/-- One item enqueued at time 0, looked at by the drain loop at time 130000,
past the default 120000ms MAX_REQUEST_AGE. -/
def sOld : QState := { initState with queue := [⟨3, 0⟩], isProcessing := true }

/-- Environment whose clock reads 130000 everywhere. -/
def envLate : Nat → StepEnv := fun _ => ⟨130000, 130000, 130000, .ok 0⟩

/-- A queue at the default capacity of 200 items. -/
def sFull : QState := { initState with queue := List.replicate 200 ⟨0, 0⟩ }

/-- Breaker HALF_OPEN with counters at zero. -/
def sHO : QState := { initState with circuitState := .HALF_OPEN }

/-- A freshly constructed system: health monitor just initialized at time 0,
request queue empty. -/
def sysH : System := { health := HealthState.init 0, q := initState }

/-! ### Helper lemmas about the embedded operations -/

theorem onSuccess_queue (cfg : QueueConfig) (s : QState) :
    (onSuccess cfg s).queue = s.queue := by
  simp only [onSuccess]
  split
  · split <;> rfl
  · rfl

theorem onFailure_queue (cfg : QueueConfig) (now : Int) (s : QState) :
    (onFailure cfg now s).queue = s.queue := by
  simp only [onFailure]
  split
  · rfl
  · split <;> rfl

theorem processRequest_queue (cfg : QueueConfig) (e : StepEnv)
    (req : QueuedRequest) (s : QState) :
    (processRequest cfg e req s).1.queue = s.queue := by
  cases h : e.out <;>
    simp [processRequest, h, onSuccess_queue, onFailure_queue]

theorem processRequest_event (cfg : QueueConfig) (e : StepEnv)
    (req : QueuedRequest) (s : QState) :
    (processRequest cfg e req s).2.id = req.id
    ∧ (processRequest cfg e req s).2.ts = req.timestamp
    ∧ (processRequest cfg e req s).2.atTime = e.tCheck
    ∧ (processRequest cfg e req s).2.kind.isExecution = true := by
  cases h : e.out <;> simp [processRequest, h, SettleKind.isExecution]

theorem isExecution_not_isExpiry (k : SettleKind) (h : k.isExecution = true) :
    k.isExpiry = false ∧ k ≠ SettleKind.overloaded := by
  cases k <;> simp_all [SettleKind.isExecution, SettleKind.isExpiry]

theorem cleanupLoop_ids (cfg : QueueConfig) (now : Int) (q : List QueuedRequest) :
    ((cleanupLoop cfg now q).2.map SettleEvent.id)
      ++ ((cleanupLoop cfg now q).1.map QueuedRequest.id)
    = q.map QueuedRequest.id := by
  induction q with
  | nil => simp [cleanupLoop]
  | cons first rest ih =>
    by_cases h : (cfg.MAX_REQUEST_AGE : Int) < now - first.timestamp
    · simp [cleanupLoop, h, ih]
    · simp [cleanupLoop, h]

theorem cleanupLoop_events (cfg : QueueConfig) (now : Int) (q : List QueuedRequest) :
    ∀ ev ∈ (cleanupLoop cfg now q).2,
      ev.kind = SettleKind.expiredCleanup ∧ ev.atTime = now
      ∧ (cfg.MAX_REQUEST_AGE : Int) < ev.atTime - ev.ts := by
  induction q with
  | nil => simp [cleanupLoop]
  | cons first rest ih =>
    by_cases h : (cfg.MAX_REQUEST_AGE : Int) < now - first.timestamp
    · simp only [cleanupLoop, if_pos h]
      intro ev hev
      rcases List.mem_cons.mp hev with rfl | hmem
      · exact ⟨rfl, rfl, h⟩
      · exact ih ev hmem
    · simp [cleanupLoop, h]

theorem cleanupOldRequests_ids (cfg : QueueConfig) (now : Int) (s : QState) :
    ((cleanupOldRequests cfg now s).2.map SettleEvent.id)
      ++ ((cleanupOldRequests cfg now s).1.queue.map QueuedRequest.id)
    = s.queue.map QueuedRequest.id := by
  simpa [cleanupOldRequests] using cleanupLoop_ids cfg now s.queue

theorem cleanupOldRequests_breaker (cfg : QueueConfig) (now : Int) (s : QState) :
    breakerOf (cleanupOldRequests cfg now s).1 = breakerOf s := rfl

theorem drainLoop_ids (cfg : QueueConfig) (env : Nat → StepEnv) :
    ∀ fuel i s,
      ((drainLoop cfg env i fuel s).2.map SettleEvent.id)
        ++ ((drainLoop cfg env i fuel s).1.queue.map QueuedRequest.id)
      = s.queue.map QueuedRequest.id := by
  intro fuel
  induction fuel with
  | zero => intro i s; simp [drainLoop]
  | succ n ih =>
    intro i s
    by_cases hq : s.queue = []
    · simp [drainLoop, hq]
    · have hclean := cleanupOldRequests_ids cfg (env i).tClean s
      rcases hc : (cleanupOldRequests cfg (env i).tClean s).1.queue with - | ⟨req, rest⟩
      · rw [hc] at hclean
        simp only [drainLoop, if_neg hq, hc]
        simpa using hclean
      · rw [hc] at hclean
        by_cases hage : (cfg.MAX_REQUEST_AGE : Int) < (env i).tCheck - req.timestamp
        · have hr := ih (i + 1)
            { (cleanupOldRequests cfg (env i).tClean s).1 with queue := rest }
          simp only [drainLoop, if_neg hq, hc, if_pos hage]
          simp only [List.map_append, List.map_cons, List.append_assoc,
            List.cons_append] at *
          rw [hr, hclean]
        · have hpq := processRequest_queue cfg (env i) req
            { (cleanupOldRequests cfg (env i).tClean s).1 with queue := rest }
          have hpe := processRequest_event cfg (env i) req
            { (cleanupOldRequests cfg (env i).tClean s).1 with queue := rest }
          by_cases hopen :
              (processRequest cfg (env i) req
                { (cleanupOldRequests cfg (env i).tClean s).1 with
                    queue := rest }).1.circuitState = CircuitState.OPEN
          · simp only [drainLoop, if_neg hq, hc, if_neg hage, if_pos hopen]
            simp only [List.map_append, List.map_cons, List.append_assoc,
              List.cons_append, List.map_nil, List.nil_append] at *
            rw [hpe.1, hpq, hclean]
          · have hr := ih (i + 1)
              (processRequest cfg (env i) req
                { (cleanupOldRequests cfg (env i).tClean s).1 with queue := rest }).1
            simp only [drainLoop, if_neg hq, hc, if_neg hage, if_neg hopen]
            simp only [List.map_append, List.map_cons, List.append_assoc,
              List.cons_append] at *
            rw [hpq] at hr
            rw [hr, hpe.1, hclean]

theorem cleanupOldRequests_events (cfg : QueueConfig) (now : Int) (s : QState) :
    ∀ ev ∈ (cleanupOldRequests cfg now s).2,
      ev.kind = SettleKind.expiredCleanup ∧ ev.atTime = now
      ∧ (cfg.MAX_REQUEST_AGE : Int) < ev.atTime - ev.ts := by
  simpa [cleanupOldRequests] using cleanupLoop_events cfg now s.queue

theorem drainLoop_events (cfg : QueueConfig) (env : Nat → StepEnv) :
    ∀ fuel i s, ∀ ev ∈ (drainLoop cfg env i fuel s).2,
      ev.kind ≠ SettleKind.overloaded
      ∧ (ev.kind.isExpiry = true ↔ (cfg.MAX_REQUEST_AGE : Int) < ev.atTime - ev.ts) := by
  intro fuel
  induction fuel with
  | zero => intro i s; simp [drainLoop]
  | succ n ih =>
    intro i s
    by_cases hq : s.queue = []
    · simp [drainLoop, hq]
    · have hcev := cleanupOldRequests_events cfg (env i).tClean s
      rcases hc : (cleanupOldRequests cfg (env i).tClean s).1.queue with - | ⟨req, rest⟩
      · simp only [drainLoop, if_neg hq, hc]
        intro ev hev
        rcases hcev ev hev with ⟨hk, -, hage⟩
        exact ⟨by simp [hk], by simp [hk, SettleKind.isExpiry, hage]⟩
      · by_cases hage : (cfg.MAX_REQUEST_AGE : Int) < (env i).tCheck - req.timestamp
        · simp only [drainLoop, if_neg hq, hc, if_pos hage]
          intro ev hev
          rcases List.mem_append.mp hev with hev1 | hev2
          · rcases hcev ev hev1 with ⟨hk, -, hage1⟩
            exact ⟨by simp [hk], by simp [hk, SettleKind.isExpiry, hage1]⟩
          · rcases List.mem_cons.mp hev2 with rfl | hev3
            · exact ⟨by simp, by simp [SettleKind.isExpiry, hage]⟩
            · exact ih (i + 1) _ ev hev3
        · have hpe := processRequest_event cfg (env i) req
            { (cleanupOldRequests cfg (env i).tClean s).1 with queue := rest }
          have hnx := isExecution_not_isExpiry _ hpe.2.2.2
          by_cases hopen :
              (processRequest cfg (env i) req
                { (cleanupOldRequests cfg (env i).tClean s).1 with
                    queue := rest }).1.circuitState = CircuitState.OPEN
          · simp only [drainLoop, if_neg hq, hc, if_neg hage, if_pos hopen]
            intro ev hev
            rcases List.mem_append.mp hev with hev1 | hev2
            · rcases hcev ev hev1 with ⟨hk, -, hage1⟩
              exact ⟨by simp [hk], by simp [hk, SettleKind.isExpiry, hage1]⟩
            · rcases List.mem_singleton.mp hev2 with rfl
              refine ⟨hnx.2, ?_⟩
              rw [hnx.1, hpe.2.2.1, hpe.2.1]
              simp [hage]
          · simp only [drainLoop, if_neg hq, hc, if_neg hage, if_neg hopen]
            intro ev hev
            rcases List.mem_append.mp hev with hev1 | hev2
            · rcases hcev ev hev1 with ⟨hk, -, hage1⟩
              exact ⟨by simp [hk], by simp [hk, SettleKind.isExpiry, hage1]⟩
            · rcases List.mem_cons.mp hev2 with rfl | hev3
              · refine ⟨hnx.2, ?_⟩
                rw [hnx.1, hpe.2.2.1, hpe.2.1]
                simp [hage]
              · exact ih (i + 1) _ ev hev3

theorem drainLoop_breaker (cfg : QueueConfig) (env : Nat → StepEnv) :
    ∀ fuel i s,
      (∀ ev ∈ (drainLoop cfg env i fuel s).2, ev.kind.isExpiry = true) →
      breakerOf (drainLoop cfg env i fuel s).1 = breakerOf s := by
  intro fuel
  induction fuel with
  | zero => intro i s _; rfl
  | succ n ih =>
    intro i s hall
    by_cases hq : s.queue = []
    · simp [drainLoop, hq]
    · rcases hc : (cleanupOldRequests cfg (env i).tClean s).1.queue with - | ⟨req, rest⟩
      · simp only [drainLoop, if_neg hq, hc]
        exact cleanupOldRequests_breaker cfg (env i).tClean s
      · by_cases hage : (cfg.MAX_REQUEST_AGE : Int) < (env i).tCheck - req.timestamp
        · simp only [drainLoop, if_neg hq, hc, if_pos hage] at hall ⊢
          have hsub : ∀ ev ∈ (drainLoop cfg env (i + 1) n
              { (cleanupOldRequests cfg (env i).tClean s).1 with
                  queue := rest }).2, ev.kind.isExpiry = true := by
            intro ev hev
            exact hall ev (List.mem_append_right _ (List.mem_cons_of_mem _ hev))
          have := ih (i + 1)
            { (cleanupOldRequests cfg (env i).tClean s).1 with queue := rest } hsub
          rw [this]
          exact cleanupOldRequests_breaker cfg (env i).tClean s
        · have hpe := processRequest_event cfg (env i) req
            { (cleanupOldRequests cfg (env i).tClean s).1 with queue := rest }
          have hnx := isExecution_not_isExpiry _ hpe.2.2.2
          by_cases hopen :
              (processRequest cfg (env i) req
                { (cleanupOldRequests cfg (env i).tClean s).1 with
                    queue := rest }).1.circuitState = CircuitState.OPEN
          · simp only [drainLoop, if_neg hq, hc, if_neg hage, if_pos hopen] at hall
            have : (processRequest cfg (env i) req
                { (cleanupOldRequests cfg (env i).tClean s).1 with
                    queue := rest }).2.kind.isExpiry = true :=
              hall _ (List.mem_append_right _ (List.mem_singleton.mpr rfl))
            rw [hnx.1] at this
            exact absurd this (by simp)
          · simp only [drainLoop, if_neg hq, hc, if_neg hage, if_neg hopen] at hall
            have : (processRequest cfg (env i) req
                { (cleanupOldRequests cfg (env i).tClean s).1 with
                    queue := rest }).2.kind.isExpiry = true :=
              hall _ (List.mem_append_right _ (List.mem_cons_self _ _))
            rw [hnx.1] at this
            exact absurd this (by simp)

theorem onSuccess_half_open_step (cfg : QueueConfig) (s : QState)
    (hs : s.circuitState = CircuitState.HALF_OPEN)
    (hlt : ¬ cfg.SUCCESS_THRESHOLD ≤ s.successCount + 1) :
    onSuccess cfg s =
      { s with failureCount := 0, successCount := s.successCount + 1 } := by
  simp [onSuccess, hs, hlt]

theorem onSuccess_iterate_half_open (cfg : QueueConfig) :
    ∀ (k : Nat) (s : QState), s.circuitState = CircuitState.HALF_OPEN →
      s.successCount + k < cfg.SUCCESS_THRESHOLD →
      ((onSuccess cfg)^[k] s).circuitState = CircuitState.HALF_OPEN
      ∧ ((onSuccess cfg)^[k] s).successCount = s.successCount + k := by
  intro k
  induction k with
  | zero => intro s hs _; exact ⟨hs, rfl⟩
  | succ m ih =>
    intro s hs hlt
    rw [Function.iterate_succ_apply]
    have hlt1 : ¬ cfg.SUCCESS_THRESHOLD ≤ s.successCount + 1 := by omega
    rw [onSuccess_half_open_step cfg s hs hlt1]
    have hrec := ih { s with failureCount := 0, successCount := s.successCount + 1 }
      hs (by show s.successCount + 1 + m < cfg.SUCCESS_THRESHOLD; omega)
    refine ⟨hrec.1, ?_⟩
    rw [hrec.2]
    show s.successCount + 1 + m = s.successCount + (m + 1)
    omega

theorem onFailure_half_open (cfg : QueueConfig) (now : Int) (s : QState)
    (hs : s.circuitState = CircuitState.HALF_OPEN) :
    (onFailure cfg now s).circuitState = CircuitState.OPEN
    ∧ (onFailure cfg now s).successCount = 0 := by
  simp [onFailure, hs]

theorem onSuccess_open (cfg : QueueConfig) (s : QState)
    (hs : s.circuitState = CircuitState.OPEN) :
    (onSuccess cfg s).circuitState = CircuitState.OPEN := by
  simp [onSuccess, hs]

theorem onFailure_open (cfg : QueueConfig) (now : Int) (s : QState)
    (hs : s.circuitState = CircuitState.OPEN) :
    (onFailure cfg now s).circuitState = CircuitState.OPEN := by
  simp [onFailure, hs]

theorem processRequest_open (cfg : QueueConfig) (e : StepEnv)
    (req : QueuedRequest) (s : QState) (hs : s.circuitState = CircuitState.OPEN) :
    (processRequest cfg e req s).1.circuitState = CircuitState.OPEN := by
  cases h : e.out <;> simp [processRequest, h, onSuccess_open cfg s hs,
    onFailure_open cfg _ s hs]

theorem onFailures_closed_below (cfg : QueueConfig) :
    ∀ (ts : List Int) (s : QState), s.circuitState = CircuitState.CLOSED →
      s.failureCount + ts.length < cfg.FAILURE_THRESHOLD →
      (onFailures cfg ts s).circuitState = CircuitState.CLOSED
      ∧ (onFailures cfg ts s).failureCount = s.failureCount + ts.length := by
  intro ts
  induction ts with
  | nil => intro s hs _; exact ⟨hs, rfl⟩
  | cons t ts ih =>
    intro s hs hlt
    have hlen : s.failureCount + (t :: ts).length
        = s.failureCount + 1 + ts.length := by simp; omega
    have hstep : onFailure cfg t s =
        { s with failureCount := s.failureCount + 1, lastFailureTime := some t } := by
      have h1 : ¬ cfg.FAILURE_THRESHOLD ≤ s.failureCount + 1 := by
        rw [hlen] at hlt; omega
      simp [onFailure, hs, h1]
    have hf : onFailures cfg (t :: ts) s = onFailures cfg ts (onFailure cfg t s) := by
      simp [onFailures]
    rw [hf, hstep]
    have hrec := ih { s with failureCount := s.failureCount + 1, lastFailureTime := some t }
      hs (by show s.failureCount + 1 + ts.length < cfg.FAILURE_THRESHOLD
             rw [hlen] at hlt; omega)
    refine ⟨hrec.1, ?_⟩
    rw [hrec.2]
    show s.failureCount + 1 + ts.length = s.failureCount + (t :: ts).length
    simp
    omega

theorem onFailures_open_at_threshold (cfg : QueueConfig) (ts : List Int) (s : QState)
    (hs : s.circuitState = CircuitState.CLOSED) (hf : s.failureCount = 0)
    (hlen : ts.length = cfg.FAILURE_THRESHOLD) (hpos : 0 < cfg.FAILURE_THRESHOLD) :
    (onFailures cfg ts s).circuitState = CircuitState.OPEN
    ∧ (onFailures cfg ts s).successCount = 0 := by
  rcases List.eq_nil_or_concat ts with rfl | ⟨ts1, t, rfl⟩
  · simp at hlen; omega
  · have hlen1 : ts1.length + 1 = cfg.FAILURE_THRESHOLD := by simpa using hlen
    have hstay := onFailures_closed_below cfg ts1 s hs (by rw [hf]; omega)
    have hfold : onFailures cfg (ts1.concat t) s
        = onFailure cfg t (onFailures cfg ts1 s) := by
      simp [onFailures, List.concat_eq_append, List.foldl_append]
    rw [hfold]
    have hcond : cfg.FAILURE_THRESHOLD ≤ (onFailures cfg ts1 s).failureCount + 1 := by
      rw [hstay.2, hf]; omega
    simp [onFailure, hstay.1, hcond]

theorem drainLoop_open_step (cfg : QueueConfig) (env : Nat → StepEnv) (i fuel : Nat)
    (s : QState) (req : QueuedRequest) (rest : List QueuedRequest)
    (hs : s.circuitState = CircuitState.OPEN)
    (hq : s.queue = req :: rest)
    (h1 : ¬ (cfg.MAX_REQUEST_AGE : Int) < (env i).tClean - req.timestamp)
    (h2 : ¬ (cfg.MAX_REQUEST_AGE : Int) < (env i).tCheck - req.timestamp) :
    drainLoop cfg env i (fuel + 1) s
      = ((processRequest cfg (env i) req { s with queue := rest }).1,
         [(processRequest cfg (env i) req { s with queue := rest }).2]) := by
  have hne : ¬ s.queue = [] := by simp [hq]
  have hcl : cleanupOldRequests cfg (env i).tClean s
      = ({ s with queue := req :: rest }, []) := by
    simp [cleanupOldRequests, hq, cleanupLoop, h1]
  have hopen := processRequest_open cfg (env i) req { s with queue := rest } hs
  simp only [drainLoop, if_neg hne, hcl, if_neg h2, if_pos hopen]
  simp

theorem enqueue_accepted (cfg : QueueConfig) (now : Int) (hid : Nat) (s : QState)
    (h : s.queue.length < cfg.MAX_QUEUE_SIZE) :
    (enqueue cfg now hid s).1.queue = s.queue ++ [⟨hid, now⟩]
    ∧ (enqueue cfg now hid s).2 = none := by
  have h1 : ¬ cfg.MAX_QUEUE_SIZE ≤ s.queue.length := by omega
  by_cases h2 : s.circuitState = CircuitState.OPEN ∧ shouldAttemptReset cfg now s
  · simp [enqueue, h1, h2]
  · simp [enqueue, h1, h2]

theorem enqueueAll_ids (cfg : QueueConfig) :
    ∀ (xs : List (Int × Nat)) (s : QState),
      s.queue.length + xs.length ≤ cfg.MAX_QUEUE_SIZE →
      (enqueueAll cfg xs s).queue.map QueuedRequest.id
        = s.queue.map QueuedRequest.id ++ xs.map Prod.snd := by
  intro xs
  induction xs with
  | nil => intro s _; simp [enqueueAll]
  | cons p xs ih =>
    intro s hlen
    have hacc := enqueue_accepted cfg p.1 p.2 s (by simp at hlen; omega)
    have hstep : enqueueAll cfg (p :: xs) s
        = enqueueAll cfg xs (enqueue cfg p.1 p.2 s).1 := by
      simp [enqueueAll]
    rw [hstep]
    have hrec := ih (enqueue cfg p.1 p.2 s).1
      (by rw [hacc.1]; simp at hlen ⊢; omega)
    rw [hrec, hacc.1]
    simp

/-! ### Claim theorems -/

/-- C1: every work item accepted into the queue is settled exactly once:
over any serial drain-loop run, each queued item's id is accounted for
exactly once between the settlement events and the remaining queue (never
settled twice, never dropped unsettled), and every settlement the drain
loop delivers is a resolution, an execution-error or timeout rejection, or
an expiry rejection — never the overloaded rejection, which only an
at-capacity enqueue produces before acceptance. -/
theorem c1_settled_exactly_once (cfg : QueueConfig) (env : Nat → StepEnv)
    (fuel i : Nat) (s : QState)
    (hnd : (s.queue.map QueuedRequest.id).Nodup) :
    (∀ a ∈ s.queue.map QueuedRequest.id,
      ((drainLoop cfg env i fuel s).2.map SettleEvent.id).count a
        + ((drainLoop cfg env i fuel s).1.queue.map QueuedRequest.id).count a = 1)
    ∧ (∀ ev ∈ (drainLoop cfg env i fuel s).2, ev.kind ≠ SettleKind.overloaded) := by
  constructor
  · intro a ha
    have hids := drainLoop_ids cfg env fuel i s
    have h1 : ((drainLoop cfg env i fuel s).2.map SettleEvent.id
        ++ (drainLoop cfg env i fuel s).1.queue.map QueuedRequest.id).count a = 1 := by
      rw [hids]
      exact List.count_eq_one_of_mem hnd ha
    simpa [List.count_append] using h1
  · intro ev hev
    exact (drainLoop_events cfg env fuel i s ev hev).1

/-- C1 witness: draining two successful items settles item 1 exactly once. -/
theorem c1_settled_exactly_once_witness :
    ((drainLoop defaultConfig envOk 0 2 sW1).2.map SettleEvent.id).count 1
      + ((drainLoop defaultConfig envOk 0 2 sW1).1.queue.map QueuedRequest.id).count 1
    = 1 := by
  have h := c1_settled_exactly_once defaultConfig envOk 2 0 sW1 (by decide)
  exact h.1 1 (by decide)

/-- C3: an enqueue attempted with the queue at or over capacity returns the
state completely unchanged (so every previously queued item stays in place
and in order, none is settled) together with the immediate overloaded
rejection of the new item. -/
theorem c3_overloaded_enqueue (cfg : QueueConfig) (now : Int) (hid : Nat)
    (s : QState) (h : cfg.MAX_QUEUE_SIZE ≤ s.queue.length) :
    enqueue cfg now hid s = (s, some ⟨hid, now, now, SettleKind.overloaded⟩) := by
  simp [enqueue, h]

set_option maxRecDepth 4000 in
/-- C3 witness: enqueuing into a queue already holding the default capacity
of 200 items rejects as overloaded and leaves the state untouched. -/
theorem c3_overloaded_enqueue_witness :
    enqueue defaultConfig 5 9 sFull
      = (sFull, some ⟨9, 5, 5, SettleKind.overloaded⟩) :=
  c3_overloaded_enqueue defaultConfig 5 9 sFull (by decide)

/-- C4: a settlement produced by the drain loop is an expiry rejection
exactly when the settled item's age, at the time the loop considered it
(cleanup pass or post-dequeue age check), strictly exceeds
MAX_REQUEST_AGE; in particular an item considered past its maximum age is
always settled expired and its handler is never executed. -/
theorem c4_expired_settled_expired (cfg : QueueConfig) (env : Nat → StepEnv)
    (fuel i : Nat) (s : QState) (ev : SettleEvent)
    (hev : ev ∈ (drainLoop cfg env i fuel s).2) :
    ev.kind.isExpiry = true ↔ (cfg.MAX_REQUEST_AGE : Int) < ev.atTime - ev.ts :=
  (drainLoop_events cfg env fuel i s ev hev).2

/-- C4 witness: the item enqueued at time 0 and considered at time 130000
is settled by the cleanup pass with the expiry rejection. -/
theorem c4_expired_settled_expired_witness :
    (⟨3, 0, 130000, SettleKind.expiredCleanup⟩ : SettleEvent).kind.isExpiry = true := by
  have h := c4_expired_settled_expired defaultConfig envLate 1 0 sOld
    ⟨3, 0, 130000, SettleKind.expiredCleanup⟩ (by decide)
  exact h.mpr (by decide)

/-- C5: from HALF_OPEN with the success counter at zero, fewer than
SUCCESS_THRESHOLD consecutive successes leave the breaker HALF_OPEN with
the counter equal to the number of successes; exactly SUCCESS_THRESHOLD
successes reach CLOSED, reset the counter and clear lastFailureTime; and a
single failure in any HALF_OPEN state goes straight back to OPEN with the
success counter reset to zero. -/
theorem c5_half_open_transitions (cfg : QueueConfig) (s : QState)
    (hs : s.circuitState = CircuitState.HALF_OPEN) (h0 : s.successCount = 0)
    (hpos : 0 < cfg.SUCCESS_THRESHOLD) :
    (∀ k, k < cfg.SUCCESS_THRESHOLD →
        ((onSuccess cfg)^[k] s).circuitState = CircuitState.HALF_OPEN
        ∧ ((onSuccess cfg)^[k] s).successCount = k)
    ∧ (((onSuccess cfg)^[cfg.SUCCESS_THRESHOLD] s).circuitState = CircuitState.CLOSED
       ∧ ((onSuccess cfg)^[cfg.SUCCESS_THRESHOLD] s).successCount = 0
       ∧ ((onSuccess cfg)^[cfg.SUCCESS_THRESHOLD] s).lastFailureTime = none)
    ∧ (∀ (now : Int) (s1 : QState), s1.circuitState = CircuitState.HALF_OPEN →
        (onFailure cfg now s1).circuitState = CircuitState.OPEN
        ∧ (onFailure cfg now s1).successCount = 0) := by
  refine ⟨?_, ?_, ?_⟩
  · intro k hk
    have h := onSuccess_iterate_half_open cfg k s hs (by omega)
    rw [h0] at h
    simpa using h
  · obtain ⟨m, hm⟩ : ∃ m, cfg.SUCCESS_THRESHOLD = m + 1 :=
      ⟨cfg.SUCCESS_THRESHOLD - 1, by omega⟩
    have hiter := onSuccess_iterate_half_open cfg m s hs (by omega)
    rw [hm, Function.iterate_succ_apply']
    have hcond : cfg.SUCCESS_THRESHOLD ≤ ((onSuccess cfg)^[m] s).successCount + 1 := by
      rw [hiter.2, h0, hm]; omega
    simp [onSuccess, hiter.1, hcond]
  · intro now s1 hs1
    exact onFailure_half_open cfg now s1 hs1

/-- C5 witness: with the default threshold of 3, three consecutive
successes from HALF_OPEN close the breaker. -/
theorem c5_half_open_transitions_witness :
    ((onSuccess defaultConfig)^[3] sHO).circuitState = CircuitState.CLOSED := by
  have h := c5_half_open_transitions defaultConfig sHO rfl rfl (by decide)
  exact h.2.1.1

/-- C6: for any sequence of enqueue calls that never exceeds capacity, the
queue holds exactly the submitted ids in submission order, and any drain
settles them in exactly that order: the settlement ids followed by the
ids still queued always reproduce the submission order, with no
reordering or priority. -/
theorem c6_fifo_order (cfg : QueueConfig) (xs : List (Int × Nat)) (s : QState)
    (hcap : s.queue.length + xs.length ≤ cfg.MAX_QUEUE_SIZE) :
    ((enqueueAll cfg xs s).queue.map QueuedRequest.id
        = s.queue.map QueuedRequest.id ++ xs.map Prod.snd)
    ∧ ∀ (env : Nat → StepEnv) (i fuel : Nat),
        ((drainLoop cfg env i fuel (enqueueAll cfg xs s)).2.map SettleEvent.id)
          ++ ((drainLoop cfg env i fuel (enqueueAll cfg xs s)).1.queue.map
                QueuedRequest.id)
        = s.queue.map QueuedRequest.id ++ xs.map Prod.snd := by
  refine ⟨enqueueAll_ids cfg xs s hcap, ?_⟩
  intro env i fuel
  rw [drainLoop_ids, enqueueAll_ids cfg xs s hcap]

/-- C6 witness: enqueuing ids 1 then 2 into the empty queue and fully
draining settles them as [1, 2]. -/
theorem c6_fifo_order_witness :
    ((drainLoop defaultConfig envOk 0 2
        (enqueueAll defaultConfig [((0 : Int), 1), ((0 : Int), 2)] initState)).2.map
          SettleEvent.id)
      ++ ((drainLoop defaultConfig envOk 0 2
        (enqueueAll defaultConfig [((0 : Int), 1), ((0 : Int), 2)] initState)).1.queue.map
          QueuedRequest.id)
    = [1, 2] := by
  have h := c6_fifo_order defaultConfig [((0 : Int), 1), ((0 : Int), 2)] initState
    (by decide)
  simpa using h.2 envOk 0 2

/-- C8: routing in safeQuery: when the health monitor reports healthy the
task is executed directly and the whole system state — queue and breaker
alike — is left untouched, so the direct outcome never updates breaker
counters or state; when unhealthy the task is handed to the queue's
enqueue. -/
theorem c8_routing_policy (cfg : QueueConfig) (now : Int) (hid : Nat)
    (task : ExecOutcome) (sys : System) :
    (isHealthy sys.health = true →
        safeQuery cfg now hid task sys = (sys, RouteResult.direct task))
    ∧ (isHealthy sys.health = false →
        (safeQuery cfg now hid task sys).1.health = sys.health
        ∧ (safeQuery cfg now hid task sys).1.q = (enqueue cfg now hid sys.q).1) := by
  constructor
  · intro h; simp [safeQuery, h]
  · intro h; simp [safeQuery, h]

/-- C8 witness: on the freshly constructed (healthy) system the task takes
the fast path and the state is unchanged. -/
theorem c8_routing_policy_witness :
    safeQuery defaultConfig 0 0 (ExecOutcome.ok 1) sysH
      = (sysH, RouteResult.direct (ExecOutcome.ok 1)) := by
  exact (c8_routing_policy defaultConfig 0 0 (ExecOutcome.ok 1) sysH).1 (by decide)

/-- C9: settling items with expiry errors leaves the breaker state frame
intact: the cleanup pass never touches circuitState, failureCount,
successCount or lastFailureTime, and any drain run all of whose
settlements are expiries ends with the breaker fields exactly as it
started — an expiry is never counted as a breaker failure. -/
theorem c9_expiry_frame (cfg : QueueConfig) :
    (∀ (now : Int) (s : QState),
        breakerOf (cleanupOldRequests cfg now s).1 = breakerOf s)
    ∧ ∀ (env : Nat → StepEnv) (i fuel : Nat) (s : QState),
        (∀ ev ∈ (drainLoop cfg env i fuel s).2, ev.kind.isExpiry = true) →
        breakerOf (drainLoop cfg env i fuel s).1 = breakerOf s :=
  ⟨fun now s => cleanupOldRequests_breaker cfg now s,
   fun env i fuel s h => drainLoop_breaker cfg env fuel i s h⟩

/-- C9 witness: draining a queue holding only one long-expired item settles
it expired and leaves every breaker field unchanged. -/
theorem c9_expiry_frame_witness :
    breakerOf (drainLoop defaultConfig envLate 0 1 sOld).1 = breakerOf sOld :=
  (c9_expiry_frame defaultConfig).2 envLate 0 1 sOld (by decide)

/-- C10: a freshly constructed health monitor starts healthy with
lastSuccess initialized to the construction time, so before any probe has
completed isHealthy returns true and safeQuery takes the fast path,
executing directly against the downstream. -/
theorem c10_initial_healthy_fast_path (now t : Int) (cfg : QueueConfig)
    (hid : Nat) (task : ExecOutcome) (qs : QState) :
    isHealthy (HealthState.init now) = true
    ∧ (HealthState.init now).lastSuccess = some now
    ∧ safeQuery cfg t hid task ⟨HealthState.init now, qs⟩
        = (⟨HealthState.init now, qs⟩, RouteResult.direct task) := by
  refine ⟨rfl, rfl, ?_⟩
  simp [safeQuery, isHealthy, HealthState.init]

/-- C2 counterexample: with the breaker OPEN, the last failure at time 1000
and the clock at 2000 — only 1s of the 60s circuitResetTimeout elapsed —
a drain-loop invocation still executes the queued item's handler, settling
it with the execution error; this refutes "while OPEN no further queued
executions are attempted until circuitResetTimeout has elapsed". -/
theorem c2_counterexample :
    sOpen1.circuitState = CircuitState.OPEN
    ∧ shouldAttemptReset defaultConfig 2000 sOpen1 = false
    ∧ (processQueue defaultConfig envFail 1 sOpen1).2
        = [⟨0, 1000, 2000, SettleKind.rejectedError QError.execFailure⟩]
    ∧ (SettleKind.rejectedError QError.execFailure).isExecution = true := by
  refine ⟨rfl, by decide, by decide, by decide⟩

/-- C2 (amended): after FAILURE_THRESHOLD consecutive execution failures
while CLOSED the breaker is OPEN with the success counter reset to zero;
however, the OPEN state does not stop executions until circuitResetTimeout
elapses: each drain-loop invocation (triggered e.g. by a new enqueue)
still executes the head item of the queue, and only after that one
execution does the loop stop, with the breaker still OPEN and the
remaining items left queued. -/
theorem c2_amended (cfg : QueueConfig) (ts : List Int) (s : QState)
    (hs : s.circuitState = CircuitState.CLOSED) (hf : s.failureCount = 0)
    (hlen : ts.length = cfg.FAILURE_THRESHOLD) (hpos : 0 < cfg.FAILURE_THRESHOLD)
    (env : Nat → StepEnv) (i fuel : Nat) (s2 : QState) (req : QueuedRequest)
    (rest : List QueuedRequest)
    (hs2 : s2.circuitState = CircuitState.OPEN) (hq2 : s2.queue = req :: rest)
    (h1 : ¬ (cfg.MAX_REQUEST_AGE : Int) < (env i).tClean - req.timestamp)
    (h2 : ¬ (cfg.MAX_REQUEST_AGE : Int) < (env i).tCheck - req.timestamp) :
    ((onFailures cfg ts s).circuitState = CircuitState.OPEN
      ∧ (onFailures cfg ts s).successCount = 0)
    ∧ ((drainLoop cfg env i (fuel + 1) s2).2.map
          (fun ev => SettleKind.isExecution ev.kind) = [true]
        ∧ (drainLoop cfg env i (fuel + 1) s2).1.queue = rest
        ∧ (drainLoop cfg env i (fuel + 1) s2).1.circuitState = CircuitState.OPEN) := by
  refine ⟨onFailures_open_at_threshold cfg ts s hs hf hlen hpos, ?_⟩
  rw [drainLoop_open_step cfg env i fuel s2 req rest hs2 hq2 h1 h2]
  have hpe := processRequest_event cfg (env i) req { s2 with queue := rest }
  have hpq := processRequest_queue cfg (env i) req { s2 with queue := rest }
  have hpo := processRequest_open cfg (env i) req { s2 with queue := rest } hs2
  exact ⟨by simp [hpe.2.2.2], hpq, hpo⟩

/-- C2 amended witness: five failures open the breaker from the initial
state; one drain invocation on an OPEN breaker with a fresh queued item
executes it and stops, leaving the breaker OPEN. -/
theorem c2_amended_witness :
    (onFailures defaultConfig [10, 20, 30, 40, 50] initState).circuitState
      = CircuitState.OPEN
    ∧ (drainLoop defaultConfig envFail 0 1 sOpen1).1.circuitState
      = CircuitState.OPEN := by
  have h := c2_amended defaultConfig [10, 20, 30, 40, 50] initState rfl rfl
    (by decide) (by decide) envFail 0 0 sOpen1 ⟨0, 1000⟩ [] rfl rfl
    (by decide) (by decide)
  exact ⟨h.1.1, h.2.2.2⟩

/-- C7 counterexample: a drain-loop run that stops with the breaker OPEN and
an item still queued leaves a state in which the retry condition of the
finally block (queue non-empty AND circuit not OPEN) is false, so no 100ms
retry is scheduled; this refutes "draining resumes ... after a short retry
delay (default 100ms) while OPEN and non-empty". -/
theorem c7_counterexample :
    (processQueue defaultConfig envFail2 2 sOpen2).1.queue = [⟨5, 0⟩]
    ∧ (processQueue defaultConfig envFail2 2 sOpen2).1.circuitState
        = CircuitState.OPEN
    ∧ schedulesRetry (processQueue defaultConfig envFail2 2 sOpen2).1 = false := by
  refine ⟨by decide, by decide, by decide⟩

/-- C7 (amended): when the drain loop stops, the finally block schedules the
100ms retry exactly when the queue is non-empty AND the breaker is not
OPEN; in particular whenever a drain run ends with the breaker OPEN no
retry is scheduled, so draining resumes only on the next triggering
enqueue — items already queued can wait indefinitely if no new enqueue
arrives. -/
theorem c7_amended :
    (∀ s : QState, schedulesRetry s = true
        ↔ (s.queue ≠ [] ∧ s.circuitState ≠ CircuitState.OPEN))
    ∧ ∀ (cfg : QueueConfig) (env : Nat → StepEnv) (i fuel : Nat) (s : QState),
        (drainLoop cfg env i fuel s).1.circuitState = CircuitState.OPEN →
        schedulesRetry (drainLoop cfg env i fuel s).1 = false := by
  constructor
  · intro s
    simp [schedulesRetry, List.length_pos]
  · intro cfg env i fuel s h
    simp [schedulesRetry, h]

/-- C7 amended witness: the stopped-while-OPEN drain run schedules no
retry. -/
theorem c7_amended_witness :
    schedulesRetry (drainLoop defaultConfig envFail2 0 2 sOpen2).1 = false :=
  c7_amended.2 defaultConfig envFail2 0 2 sOpen2 (by decide)

end CdrApi
